import Mathlib

/-!  Verification development for the email-mcp-server mailbox gateway
     (src/main.py).  We shallowly embed the pieces the specification's
     claims are about: the Python value model for caller-supplied IDs,
     the batch loops of getEmailsById and deleteEmailsById (including
     the processed-ids de-duplication set, the range/type check and the
     per-item error capture), the session open/close event trace, the
     MIME body-selection policy of parse_email_message, and the
     header codec decode_email_header. -/

/-- Model of a Python value that can appear in a caller-supplied `ids`
list: an `int`, a `bool` (in Python `bool` is a subclass of `int`, so
`isinstance(True, int)` holds and `True == 1`), or a `str`. -/
inductive PyId
| int (n : Int)
| bool (b : Bool)
| str (s : String)
deriving DecidableEq, Repr

/-- The integer value of a `PyId` when Python's `isinstance(x, int)`
accepts it: plain ints and bools (True = 1, False = 0); strings have
none. -/
def pyToInt : PyId → Option Int
| .int n => some n
| .bool b => some (if b then 1 else 0)
| .str _ => none

/-- Python's `str(x)` for the values in our universe: `str(1) = "1"`,
`str(True) = "True"`, `str("x") = "x"`. -/
def pyStr : PyId → String
| .int n => toString n
| .bool b => if b then "True" else "False"
| .str s => s

/-- Python's `==` on our value universe: numeric values (ints and
bools) compare by value (`True == 1`), strings compare as strings, and
numbers never equal strings. -/
def pyEq : PyId → PyId → Bool
| .int m, .int n => m == n
| .int m, .bool b => m == (if b then (1 : Int) else 0)
| .bool a, .int n => (if a then (1 : Int) else 0) == n
| .bool a, .bool b => a == b
| .str a, .str b => a == b
| .int _, .str _ => false
| .bool _, .str _ => false
| .str _, .int _ => false
| .str _, .bool _ => false

/-- Python's `x in s` membership test for the `processed_ids` set,
using `pyEq` (Python set membership is hash-plus-equality; on our
universe that coincides with `==`). -/
def pyMem (i : PyId) (l : List PyId) : Bool :=
  l.any (fun x => pyEq i x)

/-- First-occurrence de-duplication of an id list relative to an
already-seen set, mirroring the `processed_ids` discipline of the
batch loops. -/
def pyDedupAux : List PyId → List PyId → List PyId
| [], _ => []
| i :: rest, seen =>
  if pyMem i seen then pyDedupAux rest seen
  else i :: pyDedupAux rest (seen ++ [i])

/-- First-occurrence de-duplication of an id list under Python `==`. -/
def pyDedup (ids : List PyId) : List PyId :=
  pyDedupAux ids []

/-- A caller-supplied argument that is either an actual Python list or
some non-list value (the shape `isinstance(ids, list)` rejects). -/
inductive PyArg (α : Type)
| list (xs : List α)
| notList

/-- The range test `1 <= requested_id <= num_messages`. -/
def inRange (num : Nat) (v : Int) : Bool :=
  decide (1 ≤ v ∧ v ≤ (num : Int))

/-- True when id `i` passes the batch check: `isinstance(i, int)` and
`1 <= i <= num_messages`. -/
def pyValid (num : Nat) (i : PyId) : Bool :=
  match pyToInt i with
  | some v => inRange num v
  | none => false

/-- The per-id protocol call issued by a batch loop for id `i`, if
any: the loop passes the original requested object to the session
operation (`mailbox.retr(requested_id)`), so the call is keyed by the
object itself, not by its integer value — poplib formats the argument
into the wire command with %s, so e.g. retr(True) goes out as
"RETR True", a different wire command from retr(1)'s "RETR 1". -/
def callOf (num : Nat) (i : PyId) : Option PyId :=
  if pyValid num i then some i else none

/-- Protocol-level events of one operation invocation, in order. -/
inductive Ev
| connect
| listCall
| retr (i : PyId)
| dele (i : PyId)
| quit (ok : Bool)
| smtpConnect
| sendCall
deriving DecidableEq, Repr

/-- Abstract POP3 server behaviour for one session, as observed by the
operation under test: whether connect-and-login succeeds, the message
count returned by the listing call (or its failure), the outcome of
retrieving-and-parsing each requested id object (an exception is an
`.error`), the outcome of marking each id object deleted, and whether
`quit` succeeds.  retr and dele take the Python object the loop
passes them; poplib formats it into the wire command with %s, so a
protocol-compliant server's behaviour factors through str(id) — in
particular retr(True) is sent as "RETR True" and fails on such a
server even when "RETR 1" would succeed. -/
structure Pop3 (α : Type) where
  connectOk : Bool
  listRes : Except String Nat
  retr : PyId → Except String α
  dele : PyId → Except String Unit
  quitOk : Bool

/-- Replace the quit behaviour of a POP3 model. -/
def withQuitOk (srv : Pop3 α) (q : Bool) : Pop3 α :=
  ⟨srv.connectOk, srv.listRes, srv.retr, srv.dele, q⟩

/-- One entry of the getEmailsById result list: either a success
payload for an id or an error record for it. -/
inductive Outcome (α : Type)
| success (i : PyId) (payload : α)
| error (i : PyId) (msg : String)
deriving DecidableEq, Repr

/-- The id an outcome entry is recorded for. -/
def outId : Outcome α → PyId
| .success i _ => i
| .error i _ => i

/-- The error text recorded for an invalid or out-of-range id. -/
def rangeMsg (i : PyId) (num : Nat) : String :=
  "Invalid or out-of-range ID (" ++ pyStr i ++ "). Max ID: " ++ toString num

/-- The error text recorded when retrieving or parsing an email fails. -/
def getFailMsg (i : PyId) (e : String) : String :=
  "Failed to retrieve or parse email " ++ pyStr i ++ ": " ++ e

/-- Errors an operation can raise to its caller. -/
inductive PyErr
| valueError (msg : String)
| exc (msg : String)
deriving DecidableEq, Repr

/-- Result of the getEmailsById per-id loop: the entries appended to
`results`, and the protocol events issued. -/
structure GetRes (α : Type) where
  outcomes : List (Outcome α)
  evs : List Ev

/-- The per-id loop of getEmailsById (src/main.py lines 259-283):
skip ids already in `processed_ids`; record a range/type error without
any protocol call for a non-int or out-of-range id; otherwise issue
`retr` and record its success or the error it raised; always continue
with the remaining ids. -/
def getLoop (num : Nat) (srv : Pop3 α) : List PyId → List PyId → GetRes α
| [], _ => ⟨[], []⟩
| i :: rest, proc =>
  if pyMem i proc then getLoop num srv rest proc
  else
    match pyToInt i with
    | some v =>
      if inRange num v then
        match srv.retr i with
        | .ok a =>
          let r := getLoop num srv rest (proc ++ [i])
          ⟨.success i a :: r.outcomes, .retr i :: r.evs⟩
        | .error e =>
          let r := getLoop num srv rest (proc ++ [i])
          ⟨.error i (getFailMsg i e) :: r.outcomes, .retr i :: r.evs⟩
      else
        let r := getLoop num srv rest (proc ++ [i])
        ⟨.error i (rangeMsg i num) :: r.outcomes, r.evs⟩
    | none =>
      let r := getLoop num srv rest (proc ++ [i])
      ⟨.error i (rangeMsg i num) :: r.outcomes, r.evs⟩

/-- getEmailsById (src/main.py lines 221-295): validate that `ids` is
a list before anything else, connect, list, run the per-id loop, and
close the session in the `finally` block on every path on which the
connection was opened.  The event list is the protocol trace. -/
def getEmailsById (srv : Pop3 α) (input : PyArg PyId) :
    Except PyErr (List (Outcome α)) × List Ev :=
  match input with
  | .notList => (.error (.valueError "Input 'ids' must be a list of integers."), [])
  | .list ids =>
    if srv.connectOk then
      match srv.listRes with
      | .ok num =>
        let r := getLoop num srv ids []
        (.ok r.outcomes, .connect :: .listCall :: (r.evs ++ [.quit srv.quitOk]))
      | .error e =>
        (.error (.exc ("Failed to get emails by ID: " ++ e)),
         [.connect, .listCall, .quit srv.quitOk])
    else
      (.error (.exc "Failed to get emails by ID: connection failed"), [.connect])

/-- Python dict assignment `d[k] = v`: overwrite in place if the key
is present (keeping its position), else append a new entry. -/
def dictSet (d : List (String × String)) (k v : String) : List (String × String) :=
  if d.any (fun kv => kv.1 == k) then
    d.map (fun kv => if kv.1 == k then (k, v) else kv)
  else d ++ [(k, v)]

/-- Result of the deleteEmailsById per-id loop: ids appended to
`deleted_ids`, the final `failed_ids` dict, and the protocol events. -/
structure DelRes where
  deleted : List PyId
  failed : List (String × String)
  evs : List Ev

/-- The per-id loop of deleteEmailsById (src/main.py lines 334-350):
skip processed ids; for a non-int or out-of-range id store the range
error under key `str(id)` without a protocol call; otherwise issue
`dele` and either append the id to `deleted_ids` or store the raised
error under `str(id)`. -/
def deleteLoop (num : Nat) (srv : Pop3 α) :
    List PyId → List PyId → List (String × String) → DelRes
| [], _, failed => ⟨[], failed, []⟩
| i :: rest, proc, failed =>
  if pyMem i proc then deleteLoop num srv rest proc failed
  else
    match pyToInt i with
    | some v =>
      if inRange num v then
        match srv.dele i with
        | .ok _ =>
          let r := deleteLoop num srv rest (proc ++ [i]) failed
          ⟨i :: r.deleted, r.failed, .dele i :: r.evs⟩
        | .error e =>
          let r := deleteLoop num srv rest (proc ++ [i]) (dictSet failed (pyStr i) e)
          ⟨r.deleted, r.failed, .dele i :: r.evs⟩
      else
        deleteLoop num srv rest (proc ++ [i]) (dictSet failed (pyStr i) (rangeMsg i num))
    | none =>
      deleteLoop num srv rest (proc ++ [i]) (dictSet failed (pyStr i) (rangeMsg i num))

/-- deleteEmailsById (src/main.py lines 299-362): list-shape
validation before any network activity, then connect, list, the
per-id loop, and a guaranteed `quit` whenever a session was opened. -/
def deleteEmailsById (srv : Pop3 α) (input : PyArg PyId) :
    Except PyErr (List PyId × List (String × String)) × List Ev :=
  match input with
  | .notList => (.error (.valueError "Input 'ids' must be a list of integers."), [])
  | .list ids =>
    if srv.connectOk then
      match srv.listRes with
      | .ok num =>
        let r := deleteLoop num srv ids [] []
        ((.ok (r.deleted, r.failed)), .connect :: .listCall :: (r.evs ++ [.quit srv.quitOk]))
      | .error e =>
        (.error (.exc ("Failed to delete emails by ID: " ++ e)),
         [.connect, .listCall, .quit srv.quitOk])
    else
      (.error (.exc "Failed to delete emails by ID: connection failed"), [.connect])

/-- Abstract SMTP server behaviour for one session: whether the
connect-and-login handshake succeeds, the outcome of `sendmail`, and
whether `quit` succeeds. -/
structure Smtp where
  connectOk : Bool
  sendRes : Except String Unit
  quitOk : Bool

/-- Replace the quit behaviour of an SMTP model. -/
def smtpWithQuitOk (srv : Smtp) (q : Bool) : Smtp :=
  ⟨srv.connectOk, srv.sendRes, q⟩

/-- sendTextEmail (src/main.py lines 366-414): `toAddresses` must be a
non-empty list, checked before any network activity; then the message
is built, the SMTP session opened, `sendmail` issued, and the session
closed in the `finally` block whenever it was opened.  Message
construction is pure and is not modelled further; the subject, body
and addresses do not influence the control flow embedded here. -/
def sendTextEmail (srv : Smtp) (fromAddress : String) (toAddresses : PyArg String)
    (subject : String) (body : String) : Except PyErr String × List Ev :=
  match toAddresses with
  | .notList => (.error (.valueError "Input 'toAddresses' must be a non-empty list."), [])
  | .list tos =>
    if tos.isEmpty then
      (.error (.valueError "Input 'toAddresses' must be a non-empty list."), [])
    else if srv.connectOk then
      match srv.sendRes with
      | .ok _ => (.ok "success", [.smtpConnect, .sendCall, .quit srv.quitOk])
      | .error e =>
        (.error (.exc ("Failed to send text email: " ++ e)),
         [.smtpConnect, .sendCall, .quit srv.quitOk])
    else
      (.error (.exc "Failed to send text email: connection failed"), [.smtpConnect])

/-- sendHtmlEmail (src/main.py lines 418-471): identical control flow
to sendTextEmail; only the (unmodelled, pure) MIME construction of the
outgoing message differs. -/
def sendHtmlEmail (srv : Smtp) (fromAddress : String) (toAddresses : PyArg String)
    (subject : String) (body : String) : Except PyErr String × List Ev :=
  match toAddresses with
  | .notList => (.error (.valueError "Input 'toAddresses' must be a non-empty list."), [])
  | .list tos =>
    if tos.isEmpty then
      (.error (.valueError "Input 'toAddresses' must be a non-empty list."), [])
    else if srv.connectOk then
      match srv.sendRes with
      | .ok _ => (.ok "success", [.smtpConnect, .sendCall, .quit srv.quitOk])
      | .error e =>
        (.error (.exc ("Failed to send html email: " ++ e)),
         [.smtpConnect, .sendCall, .quit srv.quitOk])
    else
      (.error (.exc "Failed to send html email: connection failed"), [.smtpConnect])

/-- True when `needle` occurs as a contiguous substring of `hay`,
modelling Python's `in` on strings. -/
def containsSub (needle : List Char) : List Char → Bool
| [] => needle.isEmpty
| c :: rest => needle.isPrefixOf (c :: rest) || containsSub needle rest

/-- One MIME part as seen by the walk loop of parse_email_message:
its content type (as returned lowercased by get_content_type), its
Content-Disposition header if present, its transfer-decoded payload
(`None` when get_payload(decode=True) yields none, e.g. for the
multipart containers themselves), and its declared charset. -/
structure MimePart where
  contentType : String
  contentDisposition : Option String
  payload : Option (List Nat)
  charset : Option String
deriving DecidableEq, Repr

/-- A parsed message: either multipart (the list of parts in
`msg.walk()` order) or a single-payload message. -/
inductive Msg
| multipart (parts : List MimePart)
| single (payload : Option (List Nat)) (charset : Option String)

/-- Python's `str(part.get("Content-Disposition"))`: the header value,
or the string "None" when the header is absent. -/
def dispStr : Option String → String
| none => "None"
| some s => s

/-- Python's `charset or 'utf-8'`: the declared charset unless it is
absent or empty. -/
def encOr : Option String → String
| none => "utf-8"
| some c => if c = "" then "utf-8" else c

/-- Decoding a payload to text: `bytes.decode(charset, errors='replace')`
with the `except LookupError` fallback to UTF-8-with-replacement.
`dec` models the charset codec (its only failure mode, with
errors='replace', is LookupError on an unknown charset name), and
`u8` models UTF-8 decoding with replacement characters, which is
total. -/
def decodePayload (dec : String → List Nat → Except Unit String)
    (u8 : List Nat → String) (cs : Option String) (bs : List Nat) : String :=
  match dec (encOr cs) bs with
  | .ok s => s
  | .error _ => u8 bs

/-- The attachment test of the walk loop:
`"attachment" in content_disposition.lower()`. -/
def isAttachment (p : MimePart) : Bool :=
  containsSub "attachment".toList
    ((dispStr p.contentDisposition).toList.map Char.toLower)

/-- True when the part's decoded payload is truthy
(`if part.get_payload(decode=True):`): present and non-empty. -/
def hasPayload (p : MimePart) : Bool :=
  match p.payload with
  | some bs => !bs.isEmpty
  | none => false

/-- A part that can become the HTML body candidate: not an attachment,
truthy payload, content type exactly "text/html". -/
def qualHtml (p : MimePart) : Bool :=
  !isAttachment p && hasPayload p && p.contentType == "text/html"

/-- A part that can become the plain-text body candidate. -/
def qualPlain (p : MimePart) : Bool :=
  !isAttachment p && hasPayload p && p.contentType == "text/plain"

/-- The decoded text of a part's payload. -/
def partText (dec : String → List Nat → Except Unit String)
    (u8 : List Nat → String) (p : MimePart) : String :=
  decodePayload dec u8 p.charset (p.payload.getD [])

/-- The walk loop of parse_email_message (src/main.py lines 125-142)
over the remaining parts, carrying the current `html_body` and
`plain_body` candidates: skip attachment-disposed parts, skip parts
without a truthy decoded payload, and let a text/html (resp.
text/plain) part overwrite the current candidate of its type. -/
def walkCands (dec : String → List Nat → Except Unit String)
    (u8 : List Nat → String) :
    List MimePart → Option String → Option String → Option String × Option String
| [], h, pl => (h, pl)
| p :: rest, h, pl =>
  if isAttachment p then walkCands dec u8 rest h pl
  else
    match p.payload with
    | some bs =>
      if bs.isEmpty then walkCands dec u8 rest h pl
      else
        if p.contentType == "text/html" then
          walkCands dec u8 rest (some (decodePayload dec u8 p.charset bs)) pl
        else if p.contentType == "text/plain" then
          walkCands dec u8 rest h (some (decodePayload dec u8 p.charset bs))
        else walkCands dec u8 rest h pl
    | none => walkCands dec u8 rest h pl

/-- Body of a multipart message: run the walk loop from empty
candidates, then `html_body if html_body is not None else plain_body
if plain_body is not None else ""` (src/main.py line 152). -/
def multipartBody (dec : String → List Nat → Except Unit String)
    (u8 : List Nat → String) (parts : List MimePart) : String :=
  match walkCands dec u8 parts none none with
  | (some h, _) => h
  | (none, some p) => p
  | (none, none) => ""

/-- The body computed by parse_email_message (src/main.py lines
120-152): the multipart walk, or, for a non-multipart message, the
single payload decoded as the plain candidate when truthy. -/
def parseEmailMessageBody (dec : String → List Nat → Except Unit String)
    (u8 : List Nat → String) : Msg → String
| .multipart parts => multipartBody dec u8 parts
| .single payload cs =>
  match payload with
  | some bs => if bs.isEmpty then "" else decodePayload dec u8 cs bs
  | none => ""

/-- The last part of the list that qualifies as the HTML candidate:
the candidate the walk loop's last-wins overwriting retains. -/
def lastHtml : List MimePart → Option MimePart
| [] => none
| p :: rest =>
  match lastHtml rest with
  | some q => some q
  | none => if qualHtml p then some p else none

/-- The last part of the list that qualifies as the plain candidate. -/
def lastPlain : List MimePart → Option MimePart
| [] => none
| p :: rest =>
  match lastPlain rest with
  | some q => some q
  | none => if qualPlain p then some p else none

/-- One segment returned by Python's email.header.decode_header: a
bytes chunk or an already-decoded string chunk, with the declared
charset (or None). -/
abbrev Seg := Sum (List Nat) String × Option String

/-- Decoding one decode_header segment inside the loop of
decode_email_header: bytes decode with the declared charset (or
UTF-8 when absent), falling back to UTF-8-with-replacement on
LookupError; string segments are appended as-is. -/
def segText (dec : String → List Nat → Except Unit String)
    (u8 : List Nat → String) : Seg → String
| (.inl bs, enc) =>
  match dec (encOr enc) bs with
  | .ok s => s
  | .error _ => u8 bs
| (.inr s, _) => s

/-- decode_email_header (src/main.py lines 86-103), parameterised by
the library's decode_header (`dh`, which may itself raise), the
charset codec `dec` and total UTF-8-with-replacement `u8`: None input
yields "", each segment is decoded with per-segment LookupError
fallback, and any failure of the whole decode returns the original
text `str(header_value)` instead of propagating. -/
def decodeEmailHeader (dh : String → Except Unit (List Seg))
    (dec : String → List Nat → Except Unit String)
    (u8 : List Nat → String) : Option String → String
| none => ""
| some hv =>
  match dh hv with
  | .error _ => hv
  | .ok segs => segs.foldl (fun acc sg => acc ++ segText dec u8 sg) ""

/-- The single outcome entry the getEmailsById loop records for a
(not-yet-processed) id. -/
def getOutcome (num : Nat) (srv : Pop3 α) (i : PyId) : Outcome α :=
  match pyToInt i with
  | some v =>
    if inRange num v then
      match srv.retr i with
      | .ok a => .success i a
      | .error e => .error i (getFailMsg i e)
    else .error i (rangeMsg i num)
  | none => .error i (rangeMsg i num)

/-- The entry the delete loop appends to `deleted_ids` for id `i`, if
any: the original requested object, for in-range integer ids whose
`dele` call succeeds (the source appends `requested_id` itself). -/
def delOkEntry (num : Nat) (srv : Pop3 α) (i : PyId) : Option PyId :=
  match pyToInt i with
  | some v =>
    if inRange num v then
      match srv.dele i with
      | .ok _ => some i
      | .error _ => none
    else none
  | none => none

/-- The `failed_ids` entry the delete loop stores for id `i`, if any:
the range/type error for an invalid id, or the raised error for an
in-range id whose `dele` call fails, keyed by `str(i)` in both cases. -/
def delFailEntry (num : Nat) (srv : Pop3 α) (i : PyId) : Option (String × String) :=
  match pyToInt i with
  | some v =>
    if inRange num v then
      match srv.dele i with
      | .ok _ => none
      | .error e => some (pyStr i, e)
    else some (pyStr i, rangeMsg i num)
  | none => some (pyStr i, rangeMsg i num)

theorem getLoop_outcomes (num : Nat) (srv : Pop3 α) :
    ∀ ids proc, (getLoop num srv ids proc).outcomes =
      (pyDedupAux ids proc).map (getOutcome num srv) := by
  intro ids
  induction ids with
  | nil => intro proc; rfl
  | cons i rest ih =>
    intro proc
    simp only [getLoop, pyDedupAux]
    by_cases hm : pyMem i proc = true
    · simp [hm, ih]
    · simp only [hm, if_false, Bool.false_eq_true]
      cases hti : pyToInt i with
      | some v =>
        by_cases hr : inRange num v = true
        · cases hre : srv.retr i with
          | ok a => simp [hm, hti, hr, hre, ih, getOutcome]
          | error e => simp [hm, hti, hr, hre, ih, getOutcome]
        · simp [hm, hti, hr, ih, getOutcome]
      | none => simp [hm, hti, ih, getOutcome]

theorem getLoop_evs (num : Nat) (srv : Pop3 α) :
    ∀ ids proc, (getLoop num srv ids proc).evs =
      (pyDedupAux ids proc).filterMap (fun i => (callOf num i).map Ev.retr) := by
  intro ids
  induction ids with
  | nil => intro proc; rfl
  | cons i rest ih =>
    intro proc
    simp only [getLoop, pyDedupAux]
    by_cases hm : pyMem i proc = true
    · simp [hm, ih]
    · simp only [hm, if_false, Bool.false_eq_true]
      cases hti : pyToInt i with
      | some v =>
        by_cases hr : inRange num v = true
        · cases hre : srv.retr i with
          | ok a => simp [hm, hti, hr, hre, ih, callOf, pyValid]
          | error e => simp [hm, hti, hr, hre, ih, callOf, pyValid]
        · simp [hm, hti, hr, ih, callOf, pyValid]
      | none => simp [hm, hti, ih, callOf, pyValid]

theorem deleteLoop_deleted (num : Nat) (srv : Pop3 α) :
    ∀ ids proc failed, (deleteLoop num srv ids proc failed).deleted =
      (pyDedupAux ids proc).filterMap (delOkEntry num srv) := by
  intro ids
  induction ids with
  | nil => intro proc failed; rfl
  | cons i rest ih =>
    intro proc failed
    simp only [deleteLoop, pyDedupAux]
    by_cases hm : pyMem i proc = true
    · simp [hm, ih]
    · simp only [hm, if_false, Bool.false_eq_true]
      cases hti : pyToInt i with
      | some v =>
        by_cases hr : inRange num v = true
        · cases hre : srv.dele i with
          | ok a => simp [hm, hti, hr, hre, ih, delOkEntry]
          | error e => simp [hm, hti, hr, hre, ih, delOkEntry]
        · simp [hm, hti, hr, ih, delOkEntry]
      | none => simp [hm, hti, ih, delOkEntry]

theorem deleteLoop_evs (num : Nat) (srv : Pop3 α) :
    ∀ ids proc failed, (deleteLoop num srv ids proc failed).evs =
      (pyDedupAux ids proc).filterMap (fun i => (callOf num i).map Ev.dele) := by
  intro ids
  induction ids with
  | nil => intro proc failed; rfl
  | cons i rest ih =>
    intro proc failed
    simp only [deleteLoop, pyDedupAux]
    by_cases hm : pyMem i proc = true
    · simp [hm, ih]
    · simp only [hm, if_false, Bool.false_eq_true]
      cases hti : pyToInt i with
      | some v =>
        by_cases hr : inRange num v = true
        · cases hre : srv.dele i with
          | ok a => simp [hm, hti, hr, hre, ih, callOf, pyValid]
          | error e => simp [hm, hti, hr, hre, ih, callOf, pyValid]
        · simp [hm, hti, hr, ih, callOf, pyValid]
      | none => simp [hm, hti, ih, callOf, pyValid]

theorem deleteLoop_failed (num : Nat) (srv : Pop3 α) :
    ∀ ids proc failed, (deleteLoop num srv ids proc failed).failed =
      ((pyDedupAux ids proc).filterMap (delFailEntry num srv)).foldl
        (fun d kv => dictSet d kv.1 kv.2) failed := by
  intro ids
  induction ids with
  | nil => intro proc failed; rfl
  | cons i rest ih =>
    intro proc failed
    simp only [deleteLoop, pyDedupAux]
    by_cases hm : pyMem i proc = true
    · simp [hm, ih]
    · simp only [hm, if_false, Bool.false_eq_true]
      cases hti : pyToInt i with
      | some v =>
        by_cases hr : inRange num v = true
        · cases hre : srv.dele i with
          | ok a => simp [hm, hti, hr, hre, ih, delFailEntry]
          | error e => simp [hm, hti, hr, hre, ih, delFailEntry]
        · simp [hm, hti, hr, ih, delFailEntry]
      | none => simp [hm, hti, ih, delFailEntry]

theorem pyEq_refl (i : PyId) : pyEq i i = true := by
  cases i <;> simp [pyEq]

theorem pyMem_append (i : PyId) (s : List PyId) (x : PyId) :
    pyMem i (s ++ [x]) = (pyMem i s || pyEq i x) := by
  simp [pyMem, List.any_append]

theorem pyEq_pyToInt {i j : PyId} (h : pyEq i j = true) : pyToInt i = pyToInt j := by
  cases i <;> cases j <;> simp_all [pyEq, pyToInt]

theorem pyValid_eq_of_pyEq {i j : PyId} (num : Nat) (h : pyEq i j = true) :
    pyValid num i = pyValid num j := by
  simp only [pyValid, pyEq_pyToInt h]

theorem callOf_some {num : Nat} {i j : PyId} (h : callOf num i = some j) :
    j = i ∧ pyValid num i = true := by
  by_cases hv : pyValid num i = true
  · rw [callOf, if_pos hv] at h
    cases h
    exact ⟨rfl, hv⟩
  · rw [callOf, if_neg hv] at h
    cases h

theorem pyDedupAux_complete :
    ∀ (ids : List PyId) (seen : List PyId) (i : PyId), i ∈ ids →
      pyMem i seen = false →
      ∃ j, j ∈ pyDedupAux ids seen ∧ pyEq i j = true := by
  intro ids
  induction ids with
  | nil => intro seen i hi; cases hi
  | cons x rest ih =>
    intro seen i hi hs
    rcases List.mem_cons.mp hi with h | h
    · subst h
      rw [pyDedupAux]
      rw [hs]
      exact ⟨i, by simp, pyEq_refl i⟩
    · rw [pyDedupAux]
      by_cases hx : pyMem x seen = true
      · rw [if_pos hx]
        exact ih seen i h hs
      · rw [if_neg hx]
        by_cases hix : pyEq i x = true
        · exact ⟨x, by simp, hix⟩
        · have hs' : pyMem i (seen ++ [x]) = false := by
            rw [pyMem_append, hs]
            simp [hix]
          obtain ⟨j, hj, hij⟩ := ih (seen ++ [x]) i h hs'
          exact ⟨j, List.mem_cons_of_mem _ hj, hij⟩

theorem pyDedup_complete (ids : List PyId) (i : PyId) (hi : i ∈ ids) :
    ∃ j, j ∈ pyDedup ids ∧ pyEq i j = true := by
  exact pyDedupAux_complete ids [] i hi rfl

theorem outId_getOutcome (num : Nat) (srv : Pop3 α) (i : PyId) :
    outId (getOutcome num srv i) = i := by
  cases hti : pyToInt i with
  | some v =>
    by_cases hr : inRange num v = true
    · cases hre : srv.retr i <;> simp [getOutcome, hti, hr, hre, outId]
    · simp [getOutcome, hti, hr, outId]
  | none => simp [getOutcome, hti, outId]

theorem getOutcome_invalid (num : Nat) (srv : Pop3 α) (i : PyId)
    (h : pyValid num i = false) :
    getOutcome num srv i = .error i (rangeMsg i num) := by
  cases hti : pyToInt i with
  | some v =>
    have hr : inRange num v = false := by simpa [pyValid, hti] using h
    simp [getOutcome, hti, hr]
  | none => simp [getOutcome, hti]

theorem delFailEntry_invalid (num : Nat) (srv : Pop3 α) (i : PyId)
    (h : pyValid num i = false) :
    delFailEntry num srv i = some (pyStr i, rangeMsg i num) := by
  cases hti : pyToInt i with
  | some v =>
    have hr : inRange num v = false := by simpa [pyValid, hti] using h
    simp [delFailEntry, hti, hr]
  | none => simp [delFailEntry, hti]

theorem delFailEntry_fst (num : Nat) (srv : Pop3 α) (i : PyId)
    (p : String × String) (h : delFailEntry num srv i = some p) :
    p.1 = pyStr i := by
  cases hti : pyToInt i with
  | some v =>
    rw [delFailEntry, hti] at h
    by_cases hr : inRange num v = true
    · cases hd : srv.dele i with
      | ok u => simp [hr, hd] at h
      | error e =>
        simp only [hr, if_true, hd] at h
        cases h
        rfl
    · simp only [hr, if_false, Bool.false_eq_true] at h
      cases h
      rfl
  | none =>
    rw [delFailEntry, hti] at h
    cases h
    rfl

theorem dictSet_fresh (d : List (String × String)) (k v : String)
    (h : ∀ kv ∈ d, kv.1 ≠ k) : dictSet d k v = d ++ [(k, v)] := by
  rw [dictSet]
  have : d.any (fun kv => kv.1 == k) = false := by
    simp only [List.any_eq_false]
    intro kv hkv
    simpa using h kv hkv
  rw [this]
  simp

theorem foldl_dictSet_fresh :
    ∀ (ps d : List (String × String)),
      (∀ kv ∈ ps, ∀ kv' ∈ d, kv'.1 ≠ kv.1) →
      (ps.map Prod.fst).Nodup →
      ps.foldl (fun d kv => dictSet d kv.1 kv.2) d = d ++ ps := by
  intro ps
  induction ps with
  | nil => intro d _ _; simp
  | cons kv rest ih =>
    intro d hdisj hnd
    have h1 : dictSet d kv.1 kv.2 = d ++ [(kv.1, kv.2)] :=
      dictSet_fresh d kv.1 kv.2 (fun kv' hkv' => hdisj kv (by simp) kv' hkv')
    simp only [List.foldl_cons, h1]
    have hnd' : (rest.map Prod.fst).Nodup := (List.nodup_cons.mp (by simpa using hnd)).2
    have hk : kv.1 ∉ rest.map Prod.fst := (List.nodup_cons.mp (by simpa using hnd)).1
    have hdisj' : ∀ kv'' ∈ rest, ∀ kv' ∈ d ++ [(kv.1, kv.2)], kv'.1 ≠ kv''.1 := by
      intro kv'' h'' kv' h'
      rcases List.mem_append.mp h' with h' | h'
      · exact hdisj kv'' (by simp [h'']) kv' h'
      · simp only [List.mem_singleton] at h'
        subst h'
        intro hc
        apply hk
        have hmem := List.mem_map_of_mem Prod.fst h''
        rwa [← hc] at hmem
    rw [ih (d ++ [(kv.1, kv.2)]) hdisj' hnd']
    simp

/-- True exactly for session-close events. -/
def isQuitEv : Ev → Bool
| .quit _ => true
| _ => false

/-- Number of session-close events in a protocol trace. -/
def countQuit (evs : List Ev) : Nat :=
  (evs.filter isQuitEv).length

theorem countQuit_append (a b : List Ev) :
    countQuit (a ++ b) = countQuit a + countQuit b := by
  simp [countQuit, List.filter_append]

theorem countQuit_filterMap_retr (f : PyId → Option PyId) (l : List PyId) :
    countQuit (l.filterMap (fun i => (f i).map Ev.retr)) = 0 := by
  induction l with
  | nil => rfl
  | cons i rest ih =>
    cases hf : f i with
    | some v => simpa [countQuit, List.filterMap_cons, hf, isQuitEv] using ih
    | none => simpa [countQuit, List.filterMap_cons, hf] using ih

theorem countQuit_filterMap_dele (f : PyId → Option PyId) (l : List PyId) :
    countQuit (l.filterMap (fun i => (f i).map Ev.dele)) = 0 := by
  induction l with
  | nil => rfl
  | cons i rest ih =>
    cases hf : f i with
    | some v => simpa [countQuit, List.filterMap_cons, hf, isQuitEv] using ih
    | none => simpa [countQuit, List.filterMap_cons, hf] using ih

/-- The candidate retained after the walk: the text of the last
same-type qualifying part when one exists, else the incoming
accumulator value. -/
def withLast (dec : String → List Nat → Except Unit String)
    (u8 : List Nat → String) (o : Option MimePart) (dflt : Option String) :
    Option String :=
  match o with
  | some q => some (partText dec u8 q)
  | none => dflt

theorem withLast_none (dec : String → List Nat → Except Unit String)
    (u8 : List Nat → String) (o : Option MimePart) :
    withLast dec u8 o none = o.map (partText dec u8) := by
  cases o <;> rfl

theorem walkCands_eq (dec : String → List Nat → Except Unit String)
    (u8 : List Nat → String) :
    ∀ (parts : List MimePart) (h pl : Option String),
      walkCands dec u8 parts h pl =
        (withLast dec u8 (lastHtml parts) h, withLast dec u8 (lastPlain parts) pl) := by
  intro parts
  induction parts with
  | nil => intro h pl; rfl
  | cons p rest ih =>
    intro h pl
    simp only [walkCands, lastHtml, lastPlain]
    by_cases hatt : isAttachment p = true
    · have hqh : qualHtml p = false := by simp [qualHtml, hatt]
      have hqp : qualPlain p = false := by simp [qualPlain, hatt]
      simp only [hatt, if_true, ih, hqh]
      cases lastHtml rest <;> cases lastPlain rest <;> simp [withLast, hqh, hqp]
    · cases hpay : p.payload with
      | none =>
        have hqh : qualHtml p = false := by simp [qualHtml, hasPayload, hpay]
        have hqp : qualPlain p = false := by simp [qualPlain, hasPayload, hpay]
        simp only [hatt, if_false, Bool.false_eq_true, hpay, ih]
        cases lastHtml rest <;> cases lastPlain rest <;> simp [withLast, hqh, hqp]
      | some bs =>
        by_cases hbe : bs.isEmpty = true
        · have hqh : qualHtml p = false := by simp [qualHtml, hasPayload, hpay, hbe]
          have hqp : qualPlain p = false := by simp [qualPlain, hasPayload, hpay, hbe]
          simp only [hatt, if_false, Bool.false_eq_true, hpay, hbe, if_true, ih]
          cases lastHtml rest <;> cases lastPlain rest <;> simp [withLast, hqh, hqp]
        · by_cases hct : p.contentType = "text/html"
          · have hqh : qualHtml p = true := by
              simp [qualHtml, hasPayload, hpay, hbe, hatt, hct]
            have hqp : qualPlain p = false := by simp [qualPlain, hct]
            have hpt : partText dec u8 p = decodePayload dec u8 p.charset bs := by
              simp [partText, hpay]
            simp only [hatt, if_false, Bool.false_eq_true, hpay, hbe, hct, if_true, ih]
            cases lastHtml rest <;> cases lastPlain rest <;>
              simp [withLast, hqh, hqp, hpt]
          · by_cases hcp : p.contentType = "text/plain"
            · have hqh : qualHtml p = false := by simp [qualHtml, hct]
              have hqp : qualPlain p = true := by
                simp [qualPlain, hasPayload, hpay, hbe, hatt, hcp]
              have hpt : partText dec u8 p = decodePayload dec u8 p.charset bs := by
                simp [partText, hpay]
              simp only [hatt, if_false, Bool.false_eq_true, hpay, hbe, hct, hcp, if_true, ih]
              cases lastHtml rest <;> cases lastPlain rest <;>
                simp [withLast, hqh, hqp, hpt]
            · have hqh : qualHtml p = false := by simp [qualHtml, hct]
              have hqp : qualPlain p = false := by simp [qualPlain, hcp]
              simp only [hatt, if_false, Bool.false_eq_true, hpay, hbe, hct, hcp, ih]
              cases lastHtml rest <;> cases lastPlain rest <;>
                simp [withLast, hqh, hqp, hct, hcp]

theorem multipartBody_eq (dec : String → List Nat → Except Unit String)
    (u8 : List Nat → String) (parts : List MimePart) :
    multipartBody dec u8 parts =
      match lastHtml parts with
      | some q => partText dec u8 q
      | none =>
        match lastPlain parts with
        | some q => partText dec u8 q
        | none => "" := by
  rw [multipartBody, walkCands_eq]
  cases lastHtml parts <;> cases lastPlain parts <;> simp [withLast]

theorem multipartBody_html (dec : String → List Nat → Except Unit String)
    (u8 : List Nat → String) {parts : List MimePart} {q : MimePart}
    (h : lastHtml parts = some q) :
    multipartBody dec u8 parts = partText dec u8 q := by
  rw [multipartBody_eq, h]

theorem multipartBody_plain (dec : String → List Nat → Except Unit String)
    (u8 : List Nat → String) {parts : List MimePart} {q : MimePart}
    (hh : lastHtml parts = none) (hp : lastPlain parts = some q) :
    multipartBody dec u8 parts = partText dec u8 q := by
  rw [multipartBody_eq, hh, hp]

theorem multipartBody_empty (dec : String → List Nat → Except Unit String)
    (u8 : List Nat → String) {parts : List MimePart}
    (hh : lastHtml parts = none) (hp : lastPlain parts = none) :
    multipartBody dec u8 parts = "" := by
  rw [multipartBody_eq, hh, hp]

theorem lastHtml_append_qual (parts : List MimePart) (q : MimePart)
    (hq : qualHtml q = true) : lastHtml (parts ++ [q]) = some q := by
  induction parts with
  | nil => simp [lastHtml, hq]
  | cons p rest ih => simp [lastHtml, ih]

theorem lastPlain_append_qual (parts : List MimePart) (q : MimePart)
    (hq : qualPlain q = true) : lastPlain (parts ++ [q]) = some q := by
  induction parts with
  | nil => simp [lastPlain, hq]
  | cons p rest ih => simp [lastPlain, ih]

theorem lastHtml_filter_att (parts : List MimePart) :
    lastHtml (parts.filter (fun p => !isAttachment p)) = lastHtml parts := by
  induction parts with
  | nil => rfl
  | cons p rest ih =>
    by_cases hatt : isAttachment p = true
    · have hq : qualHtml p = false := by simp [qualHtml, hatt]
      rw [List.filter_cons]
      simp only [hatt, Bool.not_true, if_false, Bool.false_eq_true, ih]
      rw [lastHtml]
      cases lastHtml rest <;> simp [hq, ih]
    · rw [List.filter_cons]
      simp only [hatt, Bool.not_eq_true', if_pos]
      rw [lastHtml, lastHtml, ih]

theorem lastPlain_filter_att (parts : List MimePart) :
    lastPlain (parts.filter (fun p => !isAttachment p)) = lastPlain parts := by
  induction parts with
  | nil => rfl
  | cons p rest ih =>
    by_cases hatt : isAttachment p = true
    · have hq : qualPlain p = false := by simp [qualPlain, hatt]
      rw [List.filter_cons]
      simp only [hatt, Bool.not_true, if_false, Bool.false_eq_true, ih]
      rw [lastPlain]
      cases lastPlain rest <;> simp [hq, ih]
    · rw [List.filter_cons]
      simp only [hatt, Bool.not_eq_true', if_pos]
      rw [lastPlain, lastPlain, ih]

theorem lastHtml_none_of_all (parts : List MimePart)
    (h : ∀ p ∈ parts, qualHtml p = false) : lastHtml parts = none := by
  induction parts with
  | nil => rfl
  | cons p rest ih =>
    rw [lastHtml, ih (fun x hx => h x (List.mem_cons_of_mem p hx))]
    simp [h p (by simp)]

theorem lastPlain_none_of_all (parts : List MimePart)
    (h : ∀ p ∈ parts, qualPlain p = false) : lastPlain parts = none := by
  induction parts with
  | nil => rfl
  | cons p rest ih =>
    rw [lastPlain, ih (fun x hx => h x (List.mem_cons_of_mem p hx))]
    simp [h p (by simp)]

theorem lastHtml_middle (pre post : List MimePart) (p : MimePart)
    (hp : qualHtml p = false) :
    lastHtml (pre ++ p :: post) = lastHtml (pre ++ post) := by
  induction pre with
  | nil =>
    simp only [List.nil_append]
    rw [lastHtml]
    cases lastPlain post <;> cases hlp : lastHtml post <;> simp [hp, hlp]
  | cons x rest ih =>
    simp only [List.cons_append]
    rw [lastHtml, lastHtml, ih]

theorem lastPlain_middle (pre post : List MimePart) (p : MimePart)
    (hp : qualPlain p = false) :
    lastPlain (pre ++ p :: post) = lastPlain (pre ++ post) := by
  induction pre with
  | nil =>
    simp only [List.nil_append]
    rw [lastPlain]
    cases hlp : lastPlain post <;> simp [hp, hlp]
  | cons x rest ih =>
    simp only [List.cons_append]
    rw [lastPlain, lastPlain, ih]

theorem hasPayload_empty (p : MimePart)
    (h : p.payload = none ∨ p.payload = some []) : hasPayload p = false := by
  rcases h with h | h <;> simp [hasPayload, h]

theorem filterMap_length_sum {β γ : Type} (f : PyId → Option β) (g : PyId → Option γ) :
    ∀ l : List PyId, (∀ x ∈ l, (f x).isSome = !(g x).isSome) →
      (l.filterMap f).length + (l.filterMap g).length = l.length := by
  intro l
  induction l with
  | nil => intro _; rfl
  | cons x rest ih =>
    intro h
    have hx := h x (by simp)
    have hrest := ih (fun y hy => h y (List.mem_cons_of_mem x hy))
    cases hf : f x with
    | some b =>
      have : (g x).isSome = false := by
        rw [hf] at hx
        simpa using hx.symm
      have hg : g x = none := Option.not_isSome_iff_eq_none.mp (by simp [this])
      simp only [List.filterMap_cons, hf, hg, List.length_cons]
      omega
    | none =>
      have : (g x).isSome = true := by
        rw [hf] at hx
        simpa using hx.symm
      obtain ⟨c, hg⟩ := Option.isSome_iff_exists.mp this
      simp only [List.filterMap_cons, hf, hg, List.length_cons]
      omega

theorem delOk_delFail_compl (num : Nat) (srv : Pop3 α) (i : PyId) :
    (delOkEntry num srv i).isSome = !(delFailEntry num srv i).isSome := by
  cases hti : pyToInt i with
  | some v =>
    by_cases hr : inRange num v = true
    · cases hd : srv.dele i with
      | ok u => simp [delOkEntry, delFailEntry, hti, hr, hd]
      | error e => simp [delOkEntry, delFailEntry, hti, hr, hd]
    · simp [delOkEntry, delFailEntry, hti, hr]
  | none => simp [delOkEntry, delFailEntry, hti]

theorem delFail_keys_sublist (num : Nat) (srv : Pop3 α) :
    ∀ l : List PyId,
      List.Sublist ((l.filterMap (delFailEntry num srv)).map Prod.fst) (l.map pyStr) := by
  intro l
  induction l with
  | nil => simp
  | cons i rest ih =>
    cases hf : delFailEntry num srv i with
    | some p =>
      have hp : p.1 = pyStr i := delFailEntry_fst num srv i p hf
      simp only [List.filterMap_cons, hf, List.map_cons, hp]
      exact List.Sublist.cons₂ _ ih
    | none =>
      simp only [List.filterMap_cons, hf, List.map_cons]
      exact List.Sublist.cons _ ih

theorem retr_mem_valid {num : Nat} (srv : Pop3 α) (l : List PyId) (j : PyId)
    (h : Ev.retr j ∈ l.filterMap (fun i => (callOf num i).map Ev.retr)) :
    pyValid num j = true := by
  obtain ⟨i, _, hi⟩ := List.mem_filterMap.mp h
  cases hc : callOf num i with
  | some w =>
    rw [hc] at hi
    simp only [Option.map_some'] at hi
    cases hi
    obtain ⟨hw, hv⟩ := callOf_some hc
    rw [hw]
    exact hv
  | none => rw [hc] at hi; cases hi

theorem dele_mem_valid {num : Nat} (srv : Pop3 α) (l : List PyId) (j : PyId)
    (h : Ev.dele j ∈ l.filterMap (fun i => (callOf num i).map Ev.dele)) :
    pyValid num j = true := by
  obtain ⟨i, _, hi⟩ := List.mem_filterMap.mp h
  cases hc : callOf num i with
  | some w =>
    rw [hc] at hi
    simp only [Option.map_some'] at hi
    cases hi
    obtain ⟨hw, hv⟩ := callOf_some hc
    rw [hw]
    exact hv
  | none => rw [hc] at hi; cases hi

theorem countQuit_cons (e : Ev) (l : List Ev) (he : isQuitEv e = false) :
    countQuit (e :: l) = countQuit l := by
  simp [countQuit, List.filter_cons, he]

/-- C4: decode_email_header is total and never raises: for null input
it returns empty text; a segment whose declared charset is
unrecognized (the charset codec raises LookupError) is decoded as
UTF-8 with replacement characters; and if decoding of the whole field
fails, the original undecoded text is returned instead of an error
propagating.  The result on a successful header decode is the
concatenation of the per-segment decodes. -/
theorem claim_C4 (dh : String → Except Unit (List Seg))
    (dec : String → List Nat → Except Unit String) (u8 : List Nat → String) :
    decodeEmailHeader dh dec u8 none = ""
  ∧ (∀ hv, dh hv = .error () → decodeEmailHeader dh dec u8 (some hv) = hv)
  ∧ (∀ hv segs, dh hv = .ok segs →
      decodeEmailHeader dh dec u8 (some hv) = String.join (segs.map (segText dec u8)))
  ∧ (∀ bs enc, dec (encOr enc) bs = .error () → segText dec u8 (.inl bs, enc) = u8 bs) := by
  refine ⟨rfl, ?_, ?_, ?_⟩
  · intro hv h
    simp [decodeEmailHeader, h]
  · intro hv segs h
    simp only [decodeEmailHeader, h]
    simp [String.join, List.foldl_map]
  · intro bs enc h
    simp [segText, h]

/-- Concrete witness functions for the header codec claims. -/
def dhW : String → Except Unit (List Seg) :=
  fun s => if s = "bad" then .error ()
    else .ok [(Sum.inl [1, 2], some "x-unknown"), (Sum.inr "tail", none)]

/-- Witness charset codec: only utf-8 is a known codec. -/
def decW : String → List Nat → Except Unit String :=
  fun c _ => if c = "utf-8" then .ok "D" else .error ()

/-- Witness UTF-8-with-replacement decoder. -/
def u8W : List Nat → String := fun _ => "R"

theorem claim_C4_witness :
    decodeEmailHeader dhW decW u8W none = ""
  ∧ decodeEmailHeader dhW decW u8W (some "bad") = "bad"
  ∧ decodeEmailHeader dhW decW u8W (some "ok") =
      String.join
        (([((Sum.inl [1, 2] : Sum (List Nat) String), some "x-unknown"),
           (Sum.inr "tail", none)]).map (segText decW u8W))
  ∧ segText decW u8W (.inl [1, 2], some "x-unknown") = u8W [1, 2] := by
  refine ⟨(claim_C4 dhW decW u8W).1, ?_, ?_, ?_⟩
  · exact (claim_C4 dhW decW u8W).2.1 "bad" (by simp [dhW])
  · exact (claim_C4 dhW decW u8W).2.2.1 "ok" _ (by simp [dhW])
  · exact (claim_C4 dhW decW u8W).2.2.2 [1, 2] (some "x-unknown") (by simp [decW, encOr])

/-- C5: input-shape validation happens before any network activity:
getEmailsById and deleteEmailsById raise ValueError when `ids` is not
a list, and sendTextEmail/sendHtmlEmail raise ValueError when
`toAddresses` is not a non-empty list, each with an empty protocol
trace (no connection attempted). -/
theorem claim_C5 :
    (∀ (α : Type) (srv : Pop3 α),
        getEmailsById srv .notList =
          (.error (.valueError "Input 'ids' must be a list of integers."), [])
      ∧ deleteEmailsById srv .notList =
          (.error (.valueError "Input 'ids' must be a list of integers."), []))
  ∧ (∀ (srv : Smtp) (f s b : String),
        sendTextEmail srv f .notList s b =
          (.error (.valueError "Input 'toAddresses' must be a non-empty list."), [])
      ∧ sendTextEmail srv f (.list []) s b =
          (.error (.valueError "Input 'toAddresses' must be a non-empty list."), [])
      ∧ sendHtmlEmail srv f .notList s b =
          (.error (.valueError "Input 'toAddresses' must be a non-empty list."), [])
      ∧ sendHtmlEmail srv f (.list []) s b =
          (.error (.valueError "Input 'toAddresses' must be a non-empty list."), [])) := by
  constructor
  · intro α srv
    exact ⟨rfl, rfl⟩
  · intro srv f s b
    exact ⟨rfl, rfl, rfl, rfl⟩

theorem withQuitOk_connectOk (srv : Pop3 α) (q : Bool) :
    (withQuitOk srv q).connectOk = srv.connectOk := rfl

theorem withQuitOk_listRes (srv : Pop3 α) (q : Bool) :
    (withQuitOk srv q).listRes = srv.listRes := rfl

theorem withQuitOk_retr (srv : Pop3 α) (q : Bool) :
    (withQuitOk srv q).retr = srv.retr := rfl

theorem withQuitOk_dele (srv : Pop3 α) (q : Bool) :
    (withQuitOk srv q).dele = srv.dele := rfl

theorem getLoop_withQuit (num : Nat) (srv : Pop3 α) (q : Bool) :
    ∀ ids proc, getLoop num (withQuitOk srv q) ids proc = getLoop num srv ids proc := by
  intro ids
  induction ids with
  | nil => intro proc; rfl
  | cons i rest ih =>
    intro proc
    simp only [getLoop, withQuitOk_retr, ih]

theorem deleteLoop_withQuit (num : Nat) (srv : Pop3 α) (q : Bool) :
    ∀ ids proc failed,
      deleteLoop num (withQuitOk srv q) ids proc failed = deleteLoop num srv ids proc failed := by
  intro ids
  induction ids with
  | nil => intro proc failed; rfl
  | cons i rest ih =>
    intro proc failed
    simp only [deleteLoop, withQuitOk_dele, ih]

/-- C8: whenever an operation opens its session (list-shaped input and
a successful connect), the trace contains exactly one session-close
event on every exit path — normal return, per-item errors, or a
failing listing call — and the operation's result value is unchanged
by whether the close succeeds or fails. -/
theorem claim_C8 :
    (∀ (α : Type) (srv : Pop3 α) (ids : List PyId), srv.connectOk = true →
        countQuit (getEmailsById srv (.list ids)).2 = 1
      ∧ countQuit (deleteEmailsById srv (.list ids)).2 = 1)
  ∧ (∀ (α : Type) (srv : Pop3 α) (input : PyArg PyId) (q1 q2 : Bool),
        (getEmailsById (withQuitOk srv q1) input).1 =
          (getEmailsById (withQuitOk srv q2) input).1
      ∧ (deleteEmailsById (withQuitOk srv q1) input).1 =
          (deleteEmailsById (withQuitOk srv q2) input).1)
  ∧ (∀ (srv : Smtp) (f s b : String) (tos : List String),
        tos ≠ [] → srv.connectOk = true →
        countQuit (sendTextEmail srv f (.list tos) s b).2 = 1
      ∧ countQuit (sendHtmlEmail srv f (.list tos) s b).2 = 1)
  ∧ (∀ (srv : Smtp) (f s b : String) (toA : PyArg String) (q1 q2 : Bool),
        (sendTextEmail (smtpWithQuitOk srv q1) f toA s b).1 =
          (sendTextEmail (smtpWithQuitOk srv q2) f toA s b).1
      ∧ (sendHtmlEmail (smtpWithQuitOk srv q1) f toA s b).1 =
          (sendHtmlEmail (smtpWithQuitOk srv q2) f toA s b).1) := by
  refine ⟨?_, ?_, ?_, ?_⟩
  · intro α srv ids hc
    constructor
    · cases hl : srv.listRes with
      | ok num =>
        have h0 := countQuit_filterMap_retr (callOf num) (pyDedupAux ids [])
        simp only [getEmailsById, hc, if_true, hl]
        rw [countQuit_cons Ev.connect _ rfl, countQuit_cons Ev.listCall _ rfl,
          countQuit_append, getLoop_evs, h0]
        rfl
      | error e =>
        simp [getEmailsById, hc, hl, countQuit, isQuitEv, List.filter]
    · cases hl : srv.listRes with
      | ok num =>
        have h0 := countQuit_filterMap_dele (callOf num) (pyDedupAux ids [])
        simp only [deleteEmailsById, hc, if_true, hl]
        rw [countQuit_cons Ev.connect _ rfl, countQuit_cons Ev.listCall _ rfl,
          countQuit_append, deleteLoop_evs, h0]
        rfl
      | error e =>
        simp [deleteEmailsById, hc, hl, countQuit, isQuitEv, List.filter]
  · intro α srv input q1 q2
    cases input with
    | notList => exact ⟨rfl, rfl⟩
    | list ids =>
      constructor
      · by_cases hc : srv.connectOk = true
        · cases hl : srv.listRes with
          | ok num =>
            simp only [getEmailsById, withQuitOk_connectOk, withQuitOk_listRes,
              hc, if_true, hl, getLoop_withQuit]
          | error e =>
            simp only [getEmailsById, withQuitOk_connectOk, withQuitOk_listRes,
              hc, if_true, hl]
        · simp only [getEmailsById, withQuitOk_connectOk, withQuitOk_listRes, hc,
            if_false, Bool.false_eq_true]
      · by_cases hc : srv.connectOk = true
        · cases hl : srv.listRes with
          | ok num =>
            simp only [deleteEmailsById, withQuitOk_connectOk, withQuitOk_listRes,
              hc, if_true, hl, deleteLoop_withQuit]
          | error e =>
            simp only [deleteEmailsById, withQuitOk_connectOk, withQuitOk_listRes,
              hc, if_true, hl]
        · simp only [deleteEmailsById, withQuitOk_connectOk, withQuitOk_listRes, hc,
            if_false, Bool.false_eq_true]
  · intro srv f s b tos hne hc
    cases tos with
    | nil => exact absurd rfl hne
    | cons x xs =>
      constructor
      · cases hs : srv.sendRes with
        | ok u => simp [sendTextEmail, hc, hs, countQuit, isQuitEv, List.filter]
        | error e => simp [sendTextEmail, hc, hs, countQuit, isQuitEv, List.filter]
      · cases hs : srv.sendRes with
        | ok u => simp [sendHtmlEmail, hc, hs, countQuit, isQuitEv, List.filter]
        | error e => simp [sendHtmlEmail, hc, hs, countQuit, isQuitEv, List.filter]
  · intro srv f s b toA q1 q2
    cases toA with
    | notList => exact ⟨rfl, rfl⟩
    | list tos =>
      cases tos with
      | nil => exact ⟨rfl, rfl⟩
      | cons x xs =>
        constructor
        · by_cases hc : srv.connectOk = true
          · cases hs : srv.sendRes with
            | ok u => simp [sendTextEmail, smtpWithQuitOk, hc, hs]
            | error e => simp [sendTextEmail, smtpWithQuitOk, hc, hs]
          · simp [sendTextEmail, smtpWithQuitOk, hc]
        · by_cases hc : srv.connectOk = true
          · cases hs : srv.sendRes with
            | ok u => simp [sendHtmlEmail, smtpWithQuitOk, hc, hs]
            | error e => simp [sendHtmlEmail, smtpWithQuitOk, hc, hs]
          · simp [sendHtmlEmail, smtpWithQuitOk, hc]

/-- Concrete POP3 behaviour for the session-close witness: retrieval
of id 2 raises, deletion raises, and closing the session fails. -/
def srvW8 : Pop3 Nat :=
  ⟨true, .ok 2, fun i => if i = .int 1 then .ok 5 else .error "boom",
   fun _ => .error "boom", false⟩

/-- Concrete SMTP behaviour for the session-close witness: the send
is rejected and closing the session fails. -/
def smtpW8 : Smtp := ⟨true, .error "rejected", false⟩

theorem claim_C8_witness :
    countQuit (getEmailsById srvW8 (.list [.int 1, .int 2, .str "x"])).2 = 1
  ∧ countQuit (deleteEmailsById srvW8 (.list [.int 1])).2 = 1
  ∧ (getEmailsById (withQuitOk srvW8 true) (.list [.int 1])).1 =
      (getEmailsById (withQuitOk srvW8 false) (.list [.int 1])).1
  ∧ countQuit (sendTextEmail smtpW8 "f" (.list ["a"]) "s" "b").2 = 1
  ∧ (sendHtmlEmail (smtpWithQuitOk smtpW8 true) "f" (.list ["a"]) "s" "b").1 =
      (sendHtmlEmail (smtpWithQuitOk smtpW8 false) "f" (.list ["a"]) "s" "b").1 := by
  refine ⟨(claim_C8.1 Nat srvW8 [.int 1, .int 2, .str "x"] rfl).1,
    (claim_C8.1 Nat srvW8 [.int 1] rfl).2,
    (claim_C8.2.1 Nat srvW8 (.list [.int 1]) true false).1,
    (claim_C8.2.2.1 smtpW8 "f" "s" "b" ["a"] (by simp) rfl).1,
    (claim_C8.2.2.2 smtpW8 "f" "s" "b" (.list ["a"]) true false).2⟩

/-- A protocol-compliant POP3 server with one retrievable message:
poplib formats retr's argument into the wire command with %s, so the
server's behaviour factors through the rendering str(id); only the
wire command "RETR 1" succeeds, and retr(True) goes out as
"RETR True", which this server — like any compliant one — rejects. -/
def srvC9 : Pop3 Unit :=
  ⟨true, .ok 1,
   fun i => if pyStr i = "1" then .ok () else .error "-ERR invalid argument",
   fun _ => .ok (), true⟩

/-- C9 counterexample: against a compliant server with one message,
getEmailsById([True]) records an error outcome — mailbox.retr(True)
issues the failing wire command "RETR True" — and not the success
outcome the claim asserts, even though the same server serves
getEmailsById([1]) successfully. -/
theorem claim_C9_cex :
    (getEmailsById srvC9 (.list [.bool true])).1 =
      .ok [.error (.bool true) (getFailMsg (.bool true) "-ERR invalid argument")]
  ∧ (getEmailsById srvC9 (.list [.int 1])).1 = .ok [.success (.int 1) ()] :=
  ⟨rfl, rfl⟩

/-- C9 (amended): booleans pass the batch integer-and-range check
because bool is a subclass of int: with at least one message,
getEmailsById([True]) records no range/type error — the per-ID
operation is invoked once, with the original object True, and the
outcome is exactly that call's result (a success only if the server
accepts the wire command "RETR True" that poplib's %s formatting
produces; a compliant server rejects it, giving an error outcome) —
and an input containing both 1 and True is de-duplicated to the
single outcome of its first occurrence. -/
theorem claim_C9 {α : Type} (srv : Pop3 α) (num : Nat)
    (hc : srv.connectOk = true) (hl : srv.listRes = .ok num) (hn : 1 ≤ num) :
    (∀ a, srv.retr (.bool true) = .ok a →
        (getEmailsById srv (.list [.bool true])).1 = .ok [.success (.bool true) a])
  ∧ (∀ e, srv.retr (.bool true) = .error e →
        (getEmailsById srv (.list [.bool true])).1 =
          .ok [.error (.bool true) (getFailMsg (.bool true) e)])
  ∧ (getEmailsById srv (.list [.bool true])).2 =
      [.connect, .listCall, .retr (.bool true), .quit srv.quitOk]
  ∧ (getEmailsById srv (.list [.int 1, .bool true])).1 =
      .ok [getOutcome num srv (.int 1)] := by
  have hir : inRange num 1 = true := by
    simp only [inRange, decide_eq_true_eq]
    exact ⟨le_refl 1, by exact_mod_cast hn⟩
  refine ⟨?_, ?_, ?_, ?_⟩
  · intro a hra
    simp [getEmailsById, hc, hl, getLoop, pyMem, pyToInt, hir, hra]
  · intro e hre
    simp [getEmailsById, hc, hl, getLoop, pyMem, pyToInt, hir, hre]
  · cases hre : srv.retr (.bool true) with
    | ok a => simp [getEmailsById, hc, hl, getLoop, pyMem, pyToInt, hir, hre]
    | error e => simp [getEmailsById, hc, hl, getLoop, pyMem, pyToInt, hir, hre]
  · cases hre : srv.retr (.int 1) with
    | ok a =>
      simp [getEmailsById, hc, hl, getLoop, getOutcome, pyMem, pyToInt, pyEq, hir, hre]
    | error e =>
      simp [getEmailsById, hc, hl, getLoop, getOutcome, pyMem, pyToInt, pyEq, hir, hre]

/-- A permissive POP3 server for the witness: it accepts any wire
argument, including "RETR True", and returns payload 7. -/
def srvW9 : Pop3 Nat := ⟨true, .ok 1, fun _ => .ok 7, fun _ => .ok (), true⟩

theorem claim_C9_witness :
    (getEmailsById srvW9 (.list [.bool true])).1 = .ok [.success (.bool true) 7]
  ∧ (getEmailsById srvC9 (.list [.bool true])).1 =
      .ok [.error (.bool true) (getFailMsg (.bool true) "-ERR invalid argument")]
  ∧ (getEmailsById srvW9 (.list [.int 1, .bool true])).1 =
      .ok [getOutcome 1 srvW9 (.int 1)] :=
  ⟨(claim_C9 srvW9 1 rfl rfl (by decide)).1 7 rfl,
   (claim_C9 srvC9 1 rfl rfl (by decide)).2.1 "-ERR invalid argument" rfl,
   (claim_C9 srvW9 1 rfl rfl (by decide)).2.2.2⟩

/-- C1: the final body equals the HTML candidate when one is present,
else the plain-text candidate when one is present, else empty text;
in particular a multipart message containing both a text/html part
and a text/plain part decodes to the (last) HTML part's text,
regardless of the order of the parts; a non-multipart message's
truthy payload becomes the plain candidate. -/
theorem claim_C1 (dec : String → List Nat → Except Unit String)
    (u8 : List Nat → String) :
    (∀ parts q, lastHtml parts = some q →
        parseEmailMessageBody dec u8 (.multipart parts) = partText dec u8 q)
  ∧ (∀ parts q, lastHtml parts = none → lastPlain parts = some q →
        parseEmailMessageBody dec u8 (.multipart parts) = partText dec u8 q)
  ∧ (∀ parts, lastHtml parts = none → lastPlain parts = none →
        parseEmailMessageBody dec u8 (.multipart parts) = "")
  ∧ (∀ parts qh qp, lastHtml parts = some qh → lastPlain parts = some qp →
        parseEmailMessageBody dec u8 (.multipart parts) = partText dec u8 qh)
  ∧ (∀ bs cs, bs ≠ [] →
        parseEmailMessageBody dec u8 (.single (some bs) cs) = decodePayload dec u8 cs bs)
  ∧ (∀ cs, parseEmailMessageBody dec u8 (.single none cs) = ""
        ∧ parseEmailMessageBody dec u8 (.single (some []) cs) = "") := by
  refine ⟨?_, ?_, ?_, ?_, ?_, ?_⟩
  · intro parts q hq
    exact multipartBody_html dec u8 hq
  · intro parts q hh hq
    exact multipartBody_plain dec u8 hh hq
  · intro parts hh hp
    exact multipartBody_empty dec u8 hh hp
  · intro parts qh qp hh _
    exact multipartBody_html dec u8 hh
  · intro bs cs hne
    cases bs with
    | nil => exact absurd rfl hne
    | cons x xs => rfl
  · intro cs
    exact ⟨rfl, rfl⟩

/-- Witness charset decoder: renders the byte list. -/
def decTriv : String → List Nat → Except Unit String :=
  fun _ bs => .ok (toString bs)

/-- Witness UTF-8-with-replacement decoder. -/
def u8Triv : List Nat → String := fun bs => toString bs.length

/-- A non-attachment text/html part with one payload byte. -/
def pHtml : MimePart := ⟨"text/html", none, some [72], none⟩

/-- A second non-attachment text/html part. -/
def pH2 : MimePart := ⟨"text/html", none, some [73], none⟩

/-- A non-attachment text/plain part with one payload byte. -/
def pPlain : MimePart := ⟨"text/plain", none, some [80], none⟩

/-- A second non-attachment text/plain part. -/
def pP2 : MimePart := ⟨"text/plain", none, some [81], none⟩

/-- A text/html part whose disposition marks it as an attachment. -/
def pAtt : MimePart := ⟨"text/html", some "attachment; filename=a.html", some [72], none⟩

/-- A text/html part whose decoded payload is empty. -/
def pEmptyH : MimePart := ⟨"text/html", none, some [], none⟩

theorem claim_C1_witness :
    parseEmailMessageBody decTriv u8Triv (.multipart [pPlain, pHtml]) =
      partText decTriv u8Triv pHtml
  ∧ parseEmailMessageBody decTriv u8Triv (.multipart [pHtml, pPlain]) =
      partText decTriv u8Triv pHtml
  ∧ parseEmailMessageBody decTriv u8Triv (.multipart []) = ""
  ∧ parseEmailMessageBody decTriv u8Triv (.single (some [65]) none) =
      decodePayload decTriv u8Triv none [65] :=
  ⟨(claim_C1 decTriv u8Triv).1 [pPlain, pHtml] pHtml (by decide),
   (claim_C1 decTriv u8Triv).1 [pHtml, pPlain] pHtml (by decide),
   (claim_C1 decTriv u8Triv).2.2.1 [] rfl rfl,
   (claim_C1 decTriv u8Triv).2.2.2.2.1 [65] none (by decide)⟩

/-- C6: a part whose Content-Disposition contains "attachment"
(case-insensitively) is excluded from body candidacy entirely:
filtering all such parts out does not change the body, and when every
text part with a truthy payload is an attachment the body is empty
text, even if such a part is the only text/html or text/plain part
present. -/
theorem claim_C6 (dec : String → List Nat → Except Unit String)
    (u8 : List Nat → String) :
    (∀ parts : List MimePart,
        multipartBody dec u8 (parts.filter (fun p => !isAttachment p)) =
          multipartBody dec u8 parts)
  ∧ (∀ parts : List MimePart,
        (∀ p ∈ parts, (p.contentType = "text/html" ∨ p.contentType = "text/plain") →
          hasPayload p = true → isAttachment p = true) →
        multipartBody dec u8 parts = "") := by
  constructor
  · intro parts
    rw [multipartBody_eq, multipartBody_eq, lastHtml_filter_att, lastPlain_filter_att]
  · intro parts h
    have hh : ∀ p ∈ parts, qualHtml p = false := by
      intro p hp
      by_cases hct : p.contentType = "text/html"
      · by_cases hpay : hasPayload p = true
        · have hat := h p hp (Or.inl hct) hpay
          simp [qualHtml, hat]
        · have hf : hasPayload p = false := by
            revert hpay; cases hasPayload p <;> simp
          simp [qualHtml, hf]
      · simp [qualHtml, hct]
    have hpl : ∀ p ∈ parts, qualPlain p = false := by
      intro p hp
      by_cases hct : p.contentType = "text/plain"
      · by_cases hpay : hasPayload p = true
        · have hat := h p hp (Or.inr hct) hpay
          simp [qualPlain, hat]
        · have hf : hasPayload p = false := by
            revert hpay; cases hasPayload p <;> simp
          simp [qualPlain, hf]
      · simp [qualPlain, hct]
    exact multipartBody_empty dec u8 (lastHtml_none_of_all parts hh)
      (lastPlain_none_of_all parts hpl)

theorem claim_C6_witness :
    multipartBody decTriv u8Triv ([pAtt].filter (fun p => !isAttachment p)) =
      multipartBody decTriv u8Triv [pAtt]
  ∧ multipartBody decTriv u8Triv [pAtt] = "" := by
  refine ⟨(claim_C6 decTriv u8Triv).1 [pAtt], (claim_C6 decTriv u8Triv).2 [pAtt] ?_⟩
  intro p hp hty hpay
  simp only [List.mem_singleton] at hp
  subst hp
  decide

/-- C7: among two or more non-attachment parts of the same content
type, the candidate retained is the most recently seen such part in
walk order: the retained candidates are exactly the last qualifying
html/plain parts, and appending a qualifying part makes it the
retained candidate of its type. -/
theorem claim_C7 (dec : String → List Nat → Except Unit String)
    (u8 : List Nat → String) :
    (∀ parts, walkCands dec u8 parts none none =
        ((lastHtml parts).map (partText dec u8), (lastPlain parts).map (partText dec u8)))
  ∧ (∀ parts q, qualHtml q = true →
        (walkCands dec u8 (parts ++ [q]) none none).1 = some (partText dec u8 q))
  ∧ (∀ parts q, qualPlain q = true →
        (walkCands dec u8 (parts ++ [q]) none none).2 = some (partText dec u8 q)) := by
  refine ⟨?_, ?_, ?_⟩
  · intro parts
    rw [walkCands_eq, withLast_none, withLast_none]
  · intro parts q hq
    rw [walkCands_eq]
    simp [withLast, lastHtml_append_qual parts q hq]
  · intro parts q hq
    rw [walkCands_eq]
    simp [withLast, lastPlain_append_qual parts q hq]

theorem claim_C7_witness :
    (walkCands decTriv u8Triv ([pHtml] ++ [pH2]) none none).1 =
      some (partText decTriv u8Triv pH2)
  ∧ (walkCands decTriv u8Triv ([pPlain] ++ [pP2]) none none).2 =
      some (partText decTriv u8Triv pP2) :=
  ⟨(claim_C7 decTriv u8Triv).2.1 [pHtml] pH2 (by decide),
   (claim_C7 decTriv u8Triv).2.2 [pPlain] pP2 (by decide)⟩

/-- C10: a part whose decoded payload is absent or empty is never a
body candidate — removing it does not change the body — and a
multipart message whose only text/html parts all have empty payloads
while a non-empty text/plain part exists decodes to the plain text. -/
theorem claim_C10 (dec : String → List Nat → Except Unit String)
    (u8 : List Nat → String) :
    (∀ (pre post : List MimePart) (p : MimePart),
        p.payload = none ∨ p.payload = some [] →
        multipartBody dec u8 (pre ++ p :: post) = multipartBody dec u8 (pre ++ post))
  ∧ (∀ parts q,
        (∀ p ∈ parts, p.contentType = "text/html" → isAttachment p = false →
          hasPayload p = false) →
        lastPlain parts = some q →
        multipartBody dec u8 parts = partText dec u8 q) := by
  constructor
  · intro pre post p hp
    have hf : hasPayload p = false := hasPayload_empty p hp
    have hqh : qualHtml p = false := by simp [qualHtml, hf]
    have hqp : qualPlain p = false := by simp [qualPlain, hf]
    rw [multipartBody_eq, multipartBody_eq, lastHtml_middle pre post p hqh,
      lastPlain_middle pre post p hqp]
  · intro parts q h hq
    have hh : ∀ p ∈ parts, qualHtml p = false := by
      intro p hp
      by_cases hct : p.contentType = "text/html"
      · by_cases hatt : isAttachment p = true
        · simp [qualHtml, hatt]
        · have hna : isAttachment p = false := by
            revert hatt; cases isAttachment p <;> simp
          have hf := h p hp hct hna
          simp [qualHtml, hf]
      · simp [qualHtml, hct]
    exact multipartBody_plain dec u8 (lastHtml_none_of_all parts hh) hq

theorem claim_C10_witness :
    multipartBody decTriv u8Triv ([pPlain] ++ pEmptyH :: []) =
      multipartBody decTriv u8Triv ([pPlain] ++ [])
  ∧ multipartBody decTriv u8Triv [pEmptyH, pPlain] = partText decTriv u8Triv pPlain := by
  refine ⟨(claim_C10 decTriv u8Triv).1 [pPlain] [] pEmptyH (Or.inr rfl),
    (claim_C10 decTriv u8Triv).2 [pEmptyH, pPlain] pPlain ?_ (by decide)⟩
  intro p hp hct hatt
  rcases List.mem_cons.mp hp with hp | hp
  · subst hp; decide
  · simp only [List.mem_singleton] at hp
    subst hp
    exact absurd hct (by decide)

theorem pyEq_symm (a b : PyId) : pyEq a b = pyEq b a := by
  cases a <;> cases b <;> simp [pyEq, eq_comm, Bool.beq_comm]

theorem pyDedupAux_not_seen :
    ∀ (ids seen : List PyId) (x : PyId), x ∈ pyDedupAux ids seen →
      pyMem x seen = false := by
  intro ids
  induction ids with
  | nil => intro seen x hx; cases hx
  | cons i rest ih =>
    intro seen x hx
    rw [pyDedupAux] at hx
    by_cases hm : pyMem i seen = true
    · rw [if_pos hm] at hx
      exact ih seen x hx
    · rw [if_neg hm] at hx
      rcases List.mem_cons.mp hx with h | h
      · subst h
        exact (Bool.not_eq_true _).mp hm
      · have := ih (seen ++ [i]) x h
        rw [pyMem_append] at this
        exact (Bool.or_eq_false_iff.mp this).1

theorem pyDedupAux_pairwise :
    ∀ (ids seen : List PyId),
      (pyDedupAux ids seen).Pairwise (fun a b => pyEq a b = false) := by
  intro ids
  induction ids with
  | nil => intro seen; exact List.Pairwise.nil
  | cons i rest ih =>
    intro seen
    rw [pyDedupAux]
    by_cases hm : pyMem i seen = true
    · rw [if_pos hm]
      exact ih seen
    · rw [if_neg hm]
      refine List.Pairwise.cons ?_ (ih (seen ++ [i]))
      intro y hy
      have := pyDedupAux_not_seen rest (seen ++ [i]) y hy
      rw [pyMem_append] at this
      have h2 := (Bool.or_eq_false_iff.mp this).2
      rw [pyEq_symm]
      exact h2

theorem map_outId_getOutcome (num : Nat) (srv : Pop3 α) :
    ∀ l : List PyId, (l.map (getOutcome num srv)).map outId = l := by
  intro l
  induction l with
  | nil => rfl
  | cons i rest ih => simp [outId_getOutcome, ih]

theorem mem_dictSet_of_mem {d : List (String × String)} {k v : String}
    (k' v' : String) (h : (k, v) ∈ d) (hkv : k = k' → v = v') :
    (k, v) ∈ dictSet d k' v' := by
  rw [dictSet]
  by_cases hany : d.any (fun kv => kv.1 == k') = true
  · rw [if_pos hany]
    by_cases hk : k = k'
    · have hv : v = v' := hkv hk
      subst hk
      subst hv
      refine List.mem_map.mpr ⟨(k, v), h, ?_⟩
      simp
    · refine List.mem_map.mpr ⟨(k, v), h, ?_⟩
      simp [hk]
  · rw [if_neg hany]
    exact List.mem_append_left _ h

theorem mem_dictSet_self (d : List (String × String)) (k v : String) :
    (k, v) ∈ dictSet d k v := by
  rw [dictSet]
  by_cases hany : d.any (fun kv => kv.1 == k) = true
  · rw [if_pos hany]
    obtain ⟨kv0, hkv0, hk0⟩ := List.any_eq_true.mp hany
    refine List.mem_map.mpr ⟨kv0, hkv0, ?_⟩
    simp [hk0]
  · rw [if_neg hany]
    exact List.mem_append_right _ (by simp)

theorem dictSet_key_invariant {d : List (String × String)} {k v : String}
    (k' v' : String) (hd : ∀ kv ∈ d, kv.1 = k → kv.2 = v) (hkv : k' = k → v' = v) :
    ∀ kv ∈ dictSet d k' v', kv.1 = k → kv.2 = v := by
  intro kv hmem hk1
  rw [dictSet] at hmem
  by_cases hany : d.any (fun x => x.1 == k') = true
  · rw [if_pos hany] at hmem
    obtain ⟨kv0, hkv0, heq⟩ := List.mem_map.mp hmem
    by_cases h0 : kv0.1 = k'
    · rw [if_pos (by simpa using h0)] at heq
      rw [← heq] at hk1 ⊢
      exact hkv hk1
    · rw [if_neg (by simpa using h0)] at heq
      rw [← heq] at hk1 ⊢
      exact hd kv0 hkv0 hk1
  · rw [if_neg hany] at hmem
    rcases List.mem_append.mp hmem with hm | hm
    · exact hd kv hm hk1
    · simp only [List.mem_singleton] at hm
      subst hm
      exact hkv hk1

theorem mem_foldl_dictSet (k v : String) :
    ∀ (ps d : List (String × String)),
      ((k, v) ∈ d ∨ (k, v) ∈ ps) →
      (∀ kv ∈ d, kv.1 = k → kv.2 = v) →
      (∀ kv ∈ ps, kv.1 = k → kv.2 = v) →
      (k, v) ∈ ps.foldl (fun d kv => dictSet d kv.1 kv.2) d := by
  intro ps
  induction ps with
  | nil =>
    intro d hmem _ _
    rcases hmem with h | h
    · exact h
    · cases h
  | cons kv0 rest ih =>
    intro d hmem hd hps
    simp only [List.foldl_cons]
    apply ih (dictSet d kv0.1 kv0.2)
    · rcases hmem with h | h
      · left
        refine mem_dictSet_of_mem kv0.1 kv0.2 h (fun hk => ?_)
        exact (hps kv0 (by simp) hk.symm).symm
      · rcases List.mem_cons.mp h with h | h
        · left
          have hkv0 : kv0 = (k, v) := h.symm
          rw [hkv0]
          exact mem_dictSet_self d k v
        · right
          exact h
    · exact dictSet_key_invariant kv0.1 kv0.2 hd (fun hk => hps kv0 (by simp) hk)
    · intro kv hkv hk1
      exact hps kv (List.mem_cons_of_mem _ hkv) hk1

/-- Concrete POP3 behaviour refuting the original C2: one message,
and marking it deleted raises "boom". -/
def srvC2 : Pop3 Unit := ⟨true, .ok 1, fun _ => .ok (), fun _ => .error "boom", true⟩

/-- C2 counterexample: for deleteEmailsById([1, "1"]) on a one-message
mailbox whose dele raises, the input has two distinct ids (1 == "1" is
false in Python) yet the final result carries a single outcome entry:
the failed mapping is keyed by str(id), so the later range error for
"1" overwrites the recorded dele error ("boom") of id 1. -/
theorem claim_C2_cex :
    (deleteEmailsById srvC2 (.list [.int 1, .str "1"])).1 =
      .ok ([], [("1", rangeMsg (.str "1") 1)])
  ∧ (pyDedup [.int 1, .str "1"]).length = 2
  ∧ pyEq (.int 1) (.str "1") = false
  ∧ rangeMsg (.str "1") 1 ≠ "boom" := by
  refine ⟨rfl, by decide, by decide, by decide⟩

/-- C2 (amended): for every input list, getEmailsById has exactly one
outcome entry per distinct id, in first-occurrence order, and each
distinct id triggers at most one protocol call (one traversal of the
de-duplicated list); for deleteEmailsById the same holds provided no
two distinct input ids share a textual representation str(id) (the
failed mapping is keyed by str(id), so e.g. 1 and "1" collide and a
later entry overwrites an earlier one). -/
theorem claim_C2 {α : Type} (srv : Pop3 α) (ids : List PyId) (num : Nat)
    (hc : srv.connectOk = true) (hl : srv.listRes = .ok num) :
    (∀ outs, (getEmailsById srv (.list ids)).1 = .ok outs →
        outs.map outId = pyDedup ids)
  ∧ (getEmailsById srv (.list ids)).2 =
      .connect :: .listCall ::
        ((pyDedup ids).filterMap (fun i => (callOf num i).map Ev.retr) ++
          [.quit srv.quitOk])
  ∧ (pyDedup ids).Pairwise (fun a b => pyEq a b = false)
  ∧ (∀ del fl, (deleteEmailsById srv (.list ids)).1 = .ok (del, fl) →
        del = (pyDedup ids).filterMap (delOkEntry num srv))
  ∧ (((pyDedup ids).map pyStr).Nodup →
      ∀ del fl, (deleteEmailsById srv (.list ids)).1 = .ok (del, fl) →
        fl = (pyDedup ids).filterMap (delFailEntry num srv)
      ∧ del.length + fl.length = (pyDedup ids).length) := by
  refine ⟨?_, ?_, pyDedupAux_pairwise ids [], ?_, ?_⟩
  · intro outs h
    simp only [getEmailsById, hc, if_true, hl, Except.ok.injEq] at h
    subst h
    rw [getLoop_outcomes]
    exact map_outId_getOutcome num srv (pyDedupAux ids [])
  · simp [getEmailsById, hc, hl, getLoop_evs, pyDedup]
  · intro del fl h
    simp only [deleteEmailsById, hc, if_true, hl, Except.ok.injEq, Prod.mk.injEq] at h
    rw [← h.1, deleteLoop_deleted, pyDedup]
  · intro hnd del fl h
    simp only [deleteEmailsById, hc, if_true, hl, Except.ok.injEq, Prod.mk.injEq] at h
    obtain ⟨h1, h2⟩ := h
    have hdel : del = (pyDedup ids).filterMap (delOkEntry num srv) := by
      rw [← h1, deleteLoop_deleted, pyDedup]
    have hkeys : ((((pyDedupAux ids []).filterMap (delFailEntry num srv)).map Prod.fst)).Nodup :=
      (delFail_keys_sublist num srv (pyDedupAux ids [])).nodup hnd
    have hfl : fl = (pyDedup ids).filterMap (delFailEntry num srv) := by
      rw [← h2, deleteLoop_failed]
      rw [foldl_dictSet_fresh _ [] (by intro kv _ kv' hkv'; cases hkv') hkeys]
      simp [pyDedup]
    refine ⟨hfl, ?_⟩
    rw [hdel, hfl]
    exact filterMap_length_sum (delOkEntry num srv) (delFailEntry num srv)
      (pyDedup ids) (fun x _ => delOk_delFail_compl num srv x)

/-- Concrete POP3 behaviour for the batch witnesses: three messages,
retrieval of the object rendering value v returns 10*v, deletions
succeed. -/
def srvW2 : Pop3 Nat :=
  ⟨true, .ok 3, fun i => .ok (((pyToInt i).getD 0).toNat * 10), fun _ => .ok (), true⟩

theorem claim_C2_witness :
    ([Outcome.success (.int 2) (20 : Nat),
      .error (.int 5) (rangeMsg (.int 5) 3)].map outId =
        pyDedup [.int 2, .int 2, .int 5])
  ∧ ([Outcome.success (.int 1) (10 : Nat),
      .error (.str "1") (rangeMsg (.str "1") 3)].map outId =
        pyDedup [.int 1, .str "1"])
  ∧ ([PyId.int 1] = (pyDedup [.int 1, .str "x"]).filterMap (delOkEntry 3 srvW2))
  ∧ ([("x", rangeMsg (.str "x") 3)] =
        (pyDedup [.int 1, .str "x"]).filterMap (delFailEntry 3 srvW2)
      ∧ [PyId.int 1].length + [("x", rangeMsg (.str "x") 3)].length =
          (pyDedup [.int 1, .str "x"]).length) :=
  ⟨(claim_C2 srvW2 [.int 2, .int 2, .int 5] 3 rfl rfl).1 _ rfl,
   (claim_C2 srvW2 [.int 1, .str "1"] 3 rfl rfl).1 _ rfl,
   (claim_C2 srvW2 [.int 1, .str "x"] 3 rfl rfl).2.2.2.1 [PyId.int 1]
     [("x", rangeMsg (.str "x") 3)] rfl,
   (claim_C2 srvW2 [.int 1, .str "x"] 3 rfl rfl).2.2.2.2 (by decide) [PyId.int 1]
     [("x", rangeMsg (.str "x") 3)] rfl⟩

/-- Concrete POP3 behaviour refuting the original C3: two messages,
and marking id 2 deleted raises "boom". -/
def srvC3 : Pop3 Unit :=
  ⟨true, .ok 2, fun _ => .ok (),
   fun i => if i = .int 2 then .error "boom" else .ok (), true⟩

/-- C3 counterexample: in deleteEmailsById(["2", 2]) the invalid id
"2" first records its range/type error under key str("2") = "2", but
the later dele failure of the valid id 2 overwrites that same key, so
the final outcome for "2" is "boom", not a range/type error. -/
theorem claim_C3_cex :
    (deleteEmailsById srvC3 (.list [.str "2", .int 2])).1 = .ok ([], [("2", "boom")])
  ∧ pyValid 2 (.str "2") = false
  ∧ ("2", rangeMsg (.str "2") 2) ∉ [("2", ("boom" : String))] := by
  refine ⟨rfl, by decide, by decide⟩

/-- C3 (amended): every de-duplicated id that fails the
integer-and-range check gets an error outcome in getEmailsById and
triggers no protocol call (no retr and no dele event carries that
id), and a per-id failure never aborts the batch (there is one
outcome per de-duplicated id); in deleteEmailsById the final entry
under that id's key is the range/type error provided no distinct
valid id shares that id's string rendering (a colliding valid id
whose dele raises overwrites the range error under the shared key). -/
theorem claim_C3 {α : Type} (srv : Pop3 α) (ids : List PyId) (num : Nat)
    (hc : srv.connectOk = true) (hl : srv.listRes = .ok num) :
    (∀ i, i ∈ pyDedup ids → pyValid num i = false →
        ∀ outs, (getEmailsById srv (.list ids)).1 = .ok outs →
          Outcome.error i (rangeMsg i num) ∈ outs)
  ∧ (∀ i, pyValid num i = false →
        Ev.retr i ∉ (getEmailsById srv (.list ids)).2
      ∧ Ev.dele i ∉ (deleteEmailsById srv (.list ids)).2)
  ∧ (∀ outs, (getEmailsById srv (.list ids)).1 = .ok outs →
        outs.length = (pyDedup ids).length)
  ∧ (∀ i, i ∈ pyDedup ids → pyValid num i = false →
        (∀ j, j ∈ pyDedup ids → pyValid num j = true → pyStr j ≠ pyStr i) →
        ∀ del fl, (deleteEmailsById srv (.list ids)).1 = .ok (del, fl) →
          (pyStr i, rangeMsg i num) ∈ fl) := by
  refine ⟨?_, ?_, ?_, ?_⟩
  · intro i hi hinv outs h
    simp only [getEmailsById, hc, if_true, hl, Except.ok.injEq] at h
    subst h
    rw [getLoop_outcomes, ← getOutcome_invalid num srv i hinv]
    exact List.mem_map_of_mem _ hi
  · intro i hinv
    constructor
    · intro hv
      simp only [getEmailsById, hc, if_true, hl, getLoop_evs] at hv
      simp only [List.mem_cons, List.mem_append, List.mem_singleton] at hv
      rcases hv with h1 | h1 | h1 | h1 | h1
      · exact Ev.noConfusion h1
      · exact Ev.noConfusion h1
      · have hval := retr_mem_valid srv _ i h1
        rw [hinv] at hval
        exact Bool.noConfusion hval
      · exact Ev.noConfusion h1
      · exact absurd h1 (List.not_mem_nil _)
    · intro hv
      simp only [deleteEmailsById, hc, if_true, hl, deleteLoop_evs] at hv
      simp only [List.mem_cons, List.mem_append, List.mem_singleton] at hv
      rcases hv with h1 | h1 | h1 | h1 | h1
      · exact Ev.noConfusion h1
      · exact Ev.noConfusion h1
      · have hval := dele_mem_valid srv _ i h1
        rw [hinv] at hval
        exact Bool.noConfusion hval
      · exact Ev.noConfusion h1
      · exact absurd h1 (List.not_mem_nil _)
  · intro outs h
    simp only [getEmailsById, hc, if_true, hl, Except.ok.injEq] at h
    subst h
    rw [getLoop_outcomes]
    simp [pyDedup]
  · intro i hi hinv hprov del fl h
    simp only [deleteEmailsById, hc, if_true, hl, Except.ok.injEq, Prod.mk.injEq] at h
    obtain ⟨h1, h2⟩ := h
    rw [← h2, deleteLoop_failed]
    apply mem_foldl_dictSet (pyStr i) (rangeMsg i num)
    · right
      exact List.mem_filterMap.mpr ⟨i, hi, delFailEntry_invalid num srv i hinv⟩
    · intro kv hkv hk1
      exact absurd hkv (List.not_mem_nil _)
    · intro kv hkv hk1
      obtain ⟨j, hj, hfj⟩ := List.mem_filterMap.mp hkv
      have hkey : kv.1 = pyStr j := delFailEntry_fst num srv j kv hfj
      have hjs : pyStr j = pyStr i := by rw [← hkey, hk1]
      have hjinv : pyValid num j = false := by
        cases hvj : pyValid num j with
        | true => exact absurd hjs (hprov j hj hvj)
        | false => rfl
      rw [delFailEntry_invalid num srv j hjinv] at hfj
      have hkv2 : kv = (pyStr j, rangeMsg j num) := by
        injection hfj with h3
        exact h3.symm
      rw [hkv2]
      show rangeMsg j num = rangeMsg i num
      rw [rangeMsg, rangeMsg, hjs]

theorem claim_C3_witness :
    Outcome.error (.str "x") (rangeMsg (.str "x") 3) ∈
      ([.success (.int 1) (10 : Nat),
        .error (.str "x") (rangeMsg (.str "x") 3)] : List (Outcome Nat))
  ∧ Ev.retr (.str "x") ∉ (getEmailsById srvW2 (.list [.int 1, .str "x"])).2
  ∧ ((pyStr (.str "x"), rangeMsg (.str "x") 3) ∈
      [("1", rangeMsg (.str "1") 3), ("x", rangeMsg (.str "x") 3)]) :=
  ⟨(claim_C3 srvW2 [.int 1, .str "x"] 3 rfl rfl).1 (.str "x") (by decide) (by decide)
     [.success (.int 1) (10 : Nat), .error (.str "x") (rangeMsg (.str "x") 3)] rfl,
   ((claim_C3 srvW2 [.int 1, .str "x"] 3 rfl rfl).2.1 (.str "x") (by decide)).1,
   (claim_C3 srvW2 [.int 1, .str "1", .str "x"] 3 rfl rfl).2.2.2 (.str "x")
     (by decide) (by decide) (by decide) [PyId.int 1]
     [("1", rangeMsg (.str "1") 3), ("x", rangeMsg (.str "x") 3)] rfl⟩
